import Mathlib

/-!
Verification of the complex-number expression engine (`app.js`): value type
`Complex` with textual parsing/formatting, tokenizer, recursive-descent
parser, AST printer, evaluator, and the randomized equivalence tester.

Embedding conventions:
* JavaScript float64 numbers are idealized as real numbers `ℝ`; decimal
  numerals and all numeral↔text conversion go through exact rationals `ℚ`.
  `NaN` is modelled by `Option.none` at the two places the source can
  produce it from text (`Number(...)` on a malformed numeral); the source
  constructor's `Number(x) || 0` coercion (NaN ↦ 0) is `Option.getD 0`.
  Non-finite values (`Infinity`) cannot arise in the real-number idealization
  and the `"Infinity"` numeral string is merged with the NaN case; no claim
  below depends on that corner.
* Thrown JS exceptions are `Except Err`; each `Err` constructor corresponds
  to one `throw` site of the source (or to a JS `TypeError` from reading a
  property of `undefined`).
* The parser's position loop is modelled with a fuel argument (`Err.fuelOut`
  is the fuel-exhaustion artifact; `parseExpression` supplies fuel that is
  ample for every input exercised here, and no theorem below depends on the
  fuel bound being tight).
* `tokens[pos]` past the end of the array is JS `undefined`. Every use the
  parser makes of a token (string comparison against a literal, regex test,
  string concatenation into an error message or a variable name) behaves on
  `undefined` exactly as it behaves on the string `"undefined"` (the regex
  test and the concatenations coerce it, and `undefined === s` is false for
  every string `s`, as is `"undefined" === s` for every token or expected
  literal the parser compares against). `peekT` therefore models the
  out-of-range read as the string `"undefined"`.
-/

namespace App

/-! ## JS numeric-string helpers (exact-rational idealization) -/

/-- One character of JS `\s` (idealized to the ASCII whitespace the engine
meets; the source never feeds exotic Unicode whitespace to these paths). -/
def isWsChar (c : Char) : Bool := c.isWhitespace

/-- JS `String.prototype.trim`. -/
def wsTrim (cs : List Char) : List Char :=
  ((cs.dropWhile isWsChar).reverse.dropWhile isWsChar).reverse

/-- JS `s.replace(/\s+/g, '')`. -/
def stripAllWs (cs : List Char) : List Char :=
  cs.filter (fun c => !isWsChar c)

def digitVal (c : Char) : ℕ := c.toNat - 48

def natOfDigits (cs : List Char) : ℕ :=
  cs.foldl (fun a c => 10 * a + digitVal c) 0

/-- Exponent suffix of a JS decimal numeral (`e`/`E`, optional sign, digits);
`none` is NaN. Anything after the digits makes the whole numeral NaN. -/
def parseExpPart (v : ℚ) : List Char → Option ℚ
  | [] => some v
  | c :: rest =>
    if c = 'e' ∨ c = 'E' then
      let sd : Bool × List Char :=
        match rest with
        | '+' :: r => (true, r)
        | '-' :: r => (false, r)
        | _ => (true, rest)
      if sd.2 ≠ [] ∧ sd.2.all Char.isDigit then
        some (if sd.1 then v * 10 ^ natOfDigits sd.2 else v / 10 ^ natOfDigits sd.2)
      else none
    else none

/-- JS `Number(s)` on a string, for the decimal-literal fragment the engine
meets: whitespace-trimmed; empty string is `0`; optional sign; digits with
optional fraction and optional exponent. `none` models NaN (and swallows the
non-finite `"Infinity"` spelling and the hex/octal/binary prefixes, none of
which any claim exercises). -/
def jsNumber (s : String) : Option ℚ :=
  let cs := wsTrim s.data
  if cs = [] then some 0
  else
    let sc : ℚ × List Char :=
      match cs with
      | '+' :: r => (1, r)
      | '-' :: r => (-1, r)
      | _ => (1, cs)
    let ip := sc.2.takeWhile Char.isDigit
    let r1 := sc.2.dropWhile Char.isDigit
    match r1 with
    | '.' :: r2 =>
      let fp := r2.takeWhile Char.isDigit
      let r3 := r2.dropWhile Char.isDigit
      if ip = [] ∧ fp = [] then none
      else parseExpPart (sc.1 * ((natOfDigits ip : ℚ) + natOfDigits fp / 10 ^ fp.length)) r3
    | _ => if ip = [] then none else parseExpPart (sc.1 * natOfDigits ip) r1

/-- JS `Number(x) || 0` applied to a possibly-NaN number: NaN (and `-0`,
which the real-number idealization cannot distinguish from `0`) collapses to
`0`, every other value is kept. -/
def orZero (x : Option ℚ) : ℚ := x.getD 0

/-- Least `k ≥ base` with `d ∣ 10 ^ k`, searched with fuel. -/
def find10Pow (d : ℕ) : ℕ → ℕ → Option ℕ
  | _, 0 => none
  | k, fuel + 1 => if d ∣ 10 ^ k then some k else find10Pow d (k + 1) fuel

/-- Decimal rendering of `n / d` (lowest terms, `d ≥ 2`) as JS prints a
float64 with a fractional part: minimal exact decimal expansion. The `"?"`
branch is unreachable for the denominators float64 values have (powers of 2
up to the fuel bound). -/
def decimalRepr (n d : ℕ) : String :=
  match find10Pow d 1 400 with
  | none => "?"
  | some k =>
    let m := n * 10 ^ k / d
    let ipart := m / 10 ^ k
    let fpart := m % 10 ^ k
    let fs := Nat.repr fpart
    Nat.repr ipart ++ "." ++ String.mk (List.replicate (k - fs.length) '0') ++ fs

/-- JS `String(x)` on a (finite, plain-decimal-range) number represented as
an exact rational: shortest decimal digits, `-` sign, no `.0` on integers.
(JS switches to exponent notation for `|x| ≥ 1e21` or `0 < |x| < 1e-6`; no
claim exercises that range.) -/
def jsStringOfRat (q : ℚ) : String :=
  let n := q.num.natAbs
  let core := if q.den = 1 then Nat.repr n else decimalRepr n q.den
  if q < 0 then "-" ++ core else core

open Classical in
/-- JS `String(x)` on an arbitrary idealized number. Every number the source
ever prints is a float64, i.e. rational, so the `"?"` branch (an irrational
real) is outside the image of the source; on rationals this is
`jsStringOfRat`. -/
noncomputable def jsStringOfReal (x : ℝ) : String :=
  if h : ∃ q : ℚ, (q : ℝ) = x then jsStringOfRat h.choose else "?"

/-! ## Errors

One constructor per `throw` site of the source (plus the JS `TypeError` a
property read on `undefined` raises, and the parser-fuel artifact). -/

inductive Err : Type
  /-- `Complex.fromString`: thrown on an empty/whitespace-only literal. -/
  | emptyComplex : Err
  /-- `tokenize`: no token pattern matches; carries the offending slice. -/
  | invalidToken (rest : String) : Err
  /-- `consume(expected)`: mismatch between expected and found token. -/
  | expectedToken (expected found : String) : Err
  /-- `parsePrimary`: parenthesized expression without a closing `)`. -/
  | unclosedParen : Err
  /-- `parsePrimary`: function call without a closing `)`. -/
  | unclosedParenCall : Err
  /-- `parsePrimary`: token that starts no primary. -/
  | invalidPrimary (t : String) : Err
  /-- `parseExpression`: tokens left over after the top-level expression. -/
  | trailingTokens (rest : String) : Err
  /-- `evalAst`: variable not bound in the environment. -/
  | unboundVar (name : String) : Err
  /-- `evalAst`: builtin called with the wrong number of arguments. -/
  | arityError (fn : String) : Err
  /-- `evalAst`: unknown function name. -/
  | unknownFunction (name : String) : Err
  /-- `Complex.div`: divisor with zero squared modulus. -/
  | divByZeroComplex : Err
  /-- `evalAst`'s `/` pre-check: right operand evaluated to exactly (0,0). -/
  | divByZeroEval : Err
  /-- `evalAst`: exponent with nonzero imaginary component. -/
  | complexExponent : Err
  /-- `evalAst`: fall-through for an op string none of the branches handle. -/
  | unknownAstEval : Err
  /-- JS `TypeError` from reading `.type` of `undefined` (missing `args[i]`). -/
  | jsTypeError : Err
  /-- Artifact of the fueled parser loops; never reached with ample fuel. -/
  | fuelOut : Err
deriving DecidableEq

/-! ## Complex -/

/-- The `Complex` value class: an immutable pair of idealized float64s.
The source constructor is `new Complex(re, im)` with `Number(x) || 0`
coercion; arithmetic always passes genuine (never-NaN in the idealization)
numbers, so plain `Complex.mk` models those sites, while the text-parsing
sites that can produce NaN go through `orZero`. -/
structure Complex : Type where
  re : ℝ
  im : ℝ

namespace Complex

/-- `Complex.fromString`: parse the canonical complex-literal text form.
Mirrors the source branch for branch; the only `throw` is the empty-string
check, every malformed numeral silently becomes NaN and then 0. -/
def fromString (s : String) : Except Err Complex :=
  let t := wsTrim s.data
  if t = [] then .error .emptyComplex
  else
    let s1 := stripAllWs t
    if s1 = ['i'] then .ok ⟨0, 1⟩
    else if s1 = ['-', 'i'] then .ok ⟨0, -1⟩
    else if 'i' ∈ s1 then
      let idxI := s1.findIdx (fun c => c = 'i')
      let core := s1.take idxI
      if core = [] then .ok ⟨0, 1⟩
      else if core = ['+'] then .ok ⟨0, 1⟩
      else if core = ['-'] then .ok ⟨0, -1⟩
      else
        match sepScan core (core.length - 1) with
        | none => .ok ⟨0, (orZero (jsNumber (String.mk core)) : ℚ)⟩
        | some sep =>
          .ok ⟨(orZero (jsNumber (String.mk (core.take sep))) : ℚ),
               (orZero (jsNumber (String.mk (core.drop sep))) : ℚ)⟩
    else .ok ⟨(orZero (jsNumber (String.mk s1)) : ℚ), 0⟩
where
  /-- The source's separator scan: largest index `i ≥ 1` of `core` holding
  `+` or `-`, found by walking from the end down to 1. -/
  sepScan (core : List Char) : ℕ → Option ℕ
    | 0 => none
    | i + 1 =>
      match core[i + 1]? with
      | some c => if c = '+' ∨ c = '-' then some (i + 1) else sepScan core i
      | none => sepScan core i

open Classical in
/-- `Complex.toString`: canonical text form. (The source's
`Number.isFinite(re) ? String(re) : String(re)` is `String(re)` in both
branches.) -/
noncomputable def toString (z : Complex) : String :=
  let reStr := jsStringOfReal z.re
  if z.im = 0 then reStr
  else if z.re = 0 then
    (if z.im = 1 then "i" else if z.im = -1 then "-i" else jsStringOfReal z.im ++ "i")
  else
    let sign := if 0 ≤ z.im then "+" else "-"
    let imAbs := |z.im|
    let imPart := if imAbs = 1 then "i" else jsStringOfReal imAbs ++ "i"
    reStr ++ sign ++ imPart

def add (a b : Complex) : Complex := ⟨a.re + b.re, a.im + b.im⟩

def sub (a b : Complex) : Complex := ⟨a.re - b.re, a.im - b.im⟩

def mul (a b : Complex) : Complex :=
  ⟨a.re * b.re - a.im * b.im, a.re * b.im + a.im * b.re⟩

open Classical in
/-- `Complex.div`: throws on a divisor whose squared modulus is exactly 0. -/
noncomputable def div (a b : Complex) : Except Err Complex :=
  let denom := b.re * b.re + b.im * b.im
  if denom = 0 then .error .divByZeroComplex
  else .ok ⟨(a.re * b.re + a.im * b.im) / denom, (a.im * b.re - a.re * b.im) / denom⟩

def conj (z : Complex) : Complex := ⟨z.re, -z.im⟩

/-- `Math.hypot(re, im)`, idealized as the exact Euclidean norm. -/
noncomputable def abs (z : Complex) : ℝ := Real.sqrt (z.re * z.re + z.im * z.im)

def neg (z : Complex) : Complex := ⟨-z.re, -z.im⟩

open Classical in
/-- `Math.atan2(y, x)` with the standard branch conventions (the real-number
idealization has no signed zero, so `atan2(±0, x<0)` collapses to the `+0`
branch, which no claim exercises). -/
noncomputable def atan2 (y x : ℝ) : ℝ :=
  if 0 < x then Real.arctan (y / x)
  else if x < 0 then
    (if 0 ≤ y then Real.arctan (y / x) + Real.pi else Real.arctan (y / x) - Real.pi)
  else if 0 < y then Real.pi / 2
  else if y < 0 then -(Real.pi / 2)
  else 0

/-- `Complex.pow` via polar form. `Math.pow` on the nonnegative base
`r = abs z` is `Real.rpow` (the two differ only at `0 ^ n` for `n < 0`,
where JS gives `Infinity`; no claim reaches that point). -/
noncomputable def pow (z : Complex) (n : ℝ) : Complex :=
  let r := z.abs
  let theta := atan2 z.im z.re
  let rn := Real.rpow r n
  let thn := theta * n
  ⟨rn * Real.cos thn, rn * Real.sin thn⟩

/-- `approxEquals`: componentwise strict `<` against the epsilon. -/
def approxEquals (a b : Complex) (eps : ℝ) : Prop :=
  |a.re - b.re| < eps ∧ |a.im - b.im| < eps

open Classical in
/-- Static `Complex.sqrt` (principal branch); `Math.sign(z.im || 1)` is `-1`
exactly when `z.im < 0`. -/
noncomputable def sqrt (z : Complex) : Complex :=
  let r := z.abs
  ⟨Real.sqrt ((r + z.re) / 2),
   (if z.im < 0 then (-1 : ℝ) else 1) * Real.sqrt ((r - z.re) / 2)⟩

end Complex

/-! ## Tokenizer

The source regex `/\s*([A-Za-z_][A-Za-z0-9_]*|\d*\.\d+|\d+|[()+\-*/^,]|(\*\*)|i)\s*/g`
is an ORDERED alternation (first alternative that matches wins, JS regex
semantics), applied at the current index (`m.index !== idx` rejects a match
that starts later). `matchAlt` mirrors the alternatives in source order;
note that the single-character class contains `*` and therefore shadows the
later `(\*\*)` alternative, and the identifier alternative shadows the
trailing `i` alternative. -/

def identChar (c : Char) : Bool := c.isAlphanum || c = '_'

def punctChars : List Char := ['(', ')', '+', '-', '*', '/', '^', ',']

/-- Alternatives 4–6 of the token alternation: single punctuation character,
then the (unreachable) two-character `**`, then the (unreachable) bare `i`. -/
def matchPunct (cs : List Char) : Option (String × List Char) :=
  match cs with
  | [] => none
  | c :: rest =>
    if c ∈ punctChars then some (String.mk [c], rest)
    else
      match cs with
      | '*' :: '*' :: r2 => some ("**", r2)
      | 'i' :: r2 => some ("i", r2)
      | _ => none

/-- One token match at the current position: identifier, then `\d*\.\d+`,
then `\d+`, then `matchPunct`. Returns the token text and the rest. -/
def matchAlt (cs : List Char) : Option (String × List Char) :=
  match cs with
  | [] => none
  | c :: rest =>
    if c.isAlpha || c = '_' then
      some (String.mk (c :: rest.takeWhile identChar), rest.dropWhile identChar)
    else
      let ds := cs.takeWhile Char.isDigit
      let r1 := cs.dropWhile Char.isDigit
      match r1 with
      | '.' :: r2 =>
        let ds2 := r2.takeWhile Char.isDigit
        if ds2 ≠ [] then some (String.mk (ds ++ '.' :: ds2), r2.dropWhile Char.isDigit)
        else if ds ≠ [] then some (String.mk ds, r1)
        else matchPunct cs
      | _ =>
        if ds ≠ [] then some (String.mk ds, r1) else matchPunct cs

/-- The `tokenize` scan loop: skip whitespace, match one token at the
current position (else fail with the raw 20-character slice from the
pre-whitespace index, as the source does), skip trailing whitespace. Each
iteration consumes at least one character, so `length + 1` fuel is ample. -/
def tokenizeLoop : ℕ → List Char → List String → Except Err (List String)
  | _, [], acc => .ok acc.reverse
  | 0, _, _ => .error .fuelOut
  | fuel + 1, cs, acc =>
    match matchAlt (cs.dropWhile isWsChar) with
    | none => .error (.invalidToken (String.mk (cs.take 20)))
    | some (tok, rest) => tokenizeLoop fuel (rest.dropWhile isWsChar) (tok :: acc)

def tokenize (s : String) : Except Err (List String) :=
  tokenizeLoop (s.data.length + 1) s.data []

/-! ## AST -/

/-- AST nodes, the source's string-tagged objects
`{type:'num'|'var'|'call'|'op', ...}` as a closed sum. `op` carries the
operator string (`'+'  '-'  '*'  '/'  '**'  'neg'`) and the argument array. -/
inductive Ast : Type
  | num (value : Complex)
  | var (name : String)
  | call (name : String) (args : List Ast)
  | op (op : String) (args : List Ast)

/-! ## Parser -/

/-- `peek()`: `tokens[pos]`, which is JS `undefined` past the end; modelled
as the string `"undefined"` (see the header comment — every parser use of a
token treats `undefined` exactly like that string). -/
def peekT (toks : List String) (pos : ℕ) : String :=
  (toks[pos]?).getD "undefined"

/-- `/^\d/.test(t)`. -/
def startsDigit (s : String) : Bool :=
  match s.data with
  | c :: _ => c.isDigit
  | [] => false

/-- `/^\d*\.\d+$/.test(t)`. -/
def isDecFrac (s : String) : Bool :=
  match s.data.dropWhile Char.isDigit with
  | '.' :: r2 => !r2.isEmpty && r2.all Char.isDigit
  | _ => false

/-- `/^[A-Za-z_][A-Za-z0-9_]*$/.test(t)`. -/
def isIdentName (s : String) : Bool :=
  match s.data with
  | [] => false
  | c :: rest => (c.isAlpha || c = '_') && rest.all identChar

/-- The parser's pure-real numeral leaf `new Complex(Number(num), 0)`. -/
def numValue (s : String) : Complex := ⟨(orZero (jsNumber s) : ℚ), 0⟩

mutual

/-- `parsePrimary`: parenthesized group, numeral (optionally fused with a
following bare `i` token via `Complex.fromString(num+'i')` — the source's
`new Complex(Number(num), 0).mul ? ... : ...` conditional takes
`Complex.fromString(num+'i')` in both branches), bare `i`, identifier
(call or variable), unary sign, else `invalidPrimary`. -/
def parsePrimary (toks : List String) : ℕ → ℕ → Except Err (Ast × ℕ)
  | 0, _ => .error .fuelOut
  | fuel + 1, pos =>
    let t := peekT toks pos
    if t = "(" then
      match parseAddSub toks fuel (pos + 1) with
      | .error e => .error e
      | .ok (node, p) =>
        if peekT toks p ≠ ")" then .error .unclosedParen
        else .ok (node, p + 1)
    else if startsDigit t || isDecFrac t then
      if peekT toks (pos + 1) = "i" then
        match Complex.fromString (t ++ "i") with
        | .error e => .error e
        | .ok c => .ok (.num c, pos + 2)
      else .ok (.num (numValue t), pos + 1)
    else if t = "i" then .ok (.num ⟨0, 1⟩, pos + 1)
    else if isIdentName t then
      if peekT toks (pos + 1) = "(" then
        match (if peekT toks (pos + 2) = ")" then .ok ([], pos + 2)
               else parseArgs toks fuel (pos + 2) :
                 Except Err (List Ast × ℕ)) with
        | .error e => .error e
        | .ok (args, p) =>
          if peekT toks p ≠ ")" then .error .unclosedParenCall
          else .ok (.call t args, p + 1)
      else .ok (.var t, pos + 1)
    else if t = "+" ∨ t = "-" then
      match parsePrimary toks fuel (pos + 1) with
      | .error e => .error e
      | .ok (prim, p) =>
        if t = "-" then .ok (.op "neg" [prim], p) else .ok (prim, p)
    else .error (.invalidPrimary t)
termination_by structural fuel _ => fuel

/-- The comma-separated argument list of a call (`while(true){...}`). -/
def parseArgs (toks : List String) : ℕ → ℕ → Except Err (List Ast × ℕ)
  | 0, _ => .error .fuelOut
  | fuel + 1, pos =>
    match parseAddSub toks fuel pos with
    | .error e => .error e
    | .ok (a, p) =>
      if peekT toks p = "," then
        match parseArgs toks fuel (p + 1) with
        | .error e => .error e
        | .ok (rest, p2) => .ok (a :: rest, p2)
      else .ok ([a], p)
termination_by structural fuel _ => fuel

/-- `parsePower`: primary, then the right-associative `**`/`^` loop. -/
def parsePower (toks : List String) : ℕ → ℕ → Except Err (Ast × ℕ)
  | 0, _ => .error .fuelOut
  | fuel + 1, pos =>
    match parsePrimary toks fuel pos with
    | .error e => .error e
    | .ok (left, p) => powerLoop toks fuel left p
termination_by structural fuel _ => fuel

/-- The `while (peek() === '**' || peek() === '^')` loop; the built node
always carries the op string `'**'`. -/
def powerLoop (toks : List String) : ℕ → Ast → ℕ → Except Err (Ast × ℕ)
  | 0, _, _ => .error .fuelOut
  | fuel + 1, left, p =>
    if peekT toks p = "**" ∨ peekT toks p = "^" then
      match parsePower toks fuel (p + 1) with
      | .error e => .error e
      | .ok (right, p2) => powerLoop toks fuel (.op "**" [left, right]) p2
    else .ok (left, p)
termination_by structural fuel _ _ => fuel

def parseMulDiv (toks : List String) : ℕ → ℕ → Except Err (Ast × ℕ)
  | 0, _ => .error .fuelOut
  | fuel + 1, pos =>
    match parsePower toks fuel pos with
    | .error e => .error e
    | .ok (node, p) => mulDivLoop toks fuel node p
termination_by structural fuel _ => fuel

/-- The `while (peek() === '*' || peek() === '/')` loop (left-associative);
the built node carries the consumed token as its op string. -/
def mulDivLoop (toks : List String) : ℕ → Ast → ℕ → Except Err (Ast × ℕ)
  | 0, _, _ => .error .fuelOut
  | fuel + 1, node, p =>
    if peekT toks p = "*" ∨ peekT toks p = "/" then
      match parsePower toks fuel (p + 1) with
      | .error e => .error e
      | .ok (right, p2) => mulDivLoop toks fuel (.op (peekT toks p) [node, right]) p2
    else .ok (node, p)
termination_by structural fuel _ _ => fuel

def parseAddSub (toks : List String) : ℕ → ℕ → Except Err (Ast × ℕ)
  | 0, _ => .error .fuelOut
  | fuel + 1, pos =>
    match parseMulDiv toks fuel pos with
    | .error e => .error e
    | .ok (node, p) => addSubLoop toks fuel node p
termination_by structural fuel _ => fuel

/-- The `while (peek() === '+' || peek() === '-')` loop (left-associative). -/
def addSubLoop (toks : List String) : ℕ → Ast → ℕ → Except Err (Ast × ℕ)
  | 0, _, _ => .error .fuelOut
  | fuel + 1, node, p =>
    if peekT toks p = "+" ∨ peekT toks p = "-" then
      match parseMulDiv toks fuel (p + 1) with
      | .error e => .error e
      | .ok (right, p2) => addSubLoop toks fuel (.op (peekT toks p) [node, right]) p2
    else .ok (node, p)
termination_by structural fuel _ _ => fuel

end

/-- `parseExpression`: one additive-tier expression from position 0, then
the unconsumed-suffix check (`tokens.slice(pos).join(' ')`). The fuel is
ample for every input below; `Err.fuelOut` is never reached there. -/
def parseExpression (toks : List String) : Except Err Ast :=
  match parseAddSub toks (4 * toks.length + 8) 0 with
  | .error e => .error e
  | .ok (ast, p) =>
    if p < toks.length then
      .error (.trailingTokens (String.intercalate " " (toks.drop p)))
    else .ok ast

/-! ## AST printer

`astToLisp`. The source's `if (!ast) return ''` guard fires exactly when an
`args[i]` read was out of range (JS `undefined`), which `lispArg` models;
`ast.value.toString()` is the canonical complex text form. -/

mutual

noncomputable def astToLisp : Ast → String
  | .num v => v.toString
  | .var name => name
  | .call name args =>
    "(" ++ name ++
      (if args.length ≠ 0 then " " ++ String.intercalate " " (lispList args) else "") ++ ")"
  | .op o args =>
    if o = "neg" then "(- " ++ lispArg args 0 ++ ")"
    else if o = "**" then "(** " ++ lispArg args 0 ++ " " ++ lispArg args 1 ++ ")"
    else "(" ++ o ++ " " ++ String.intercalate " " (lispList args) ++ ")"

/-- `astToLisp(ast.args[i])`, with the out-of-range read giving `''`. -/
noncomputable def lispArg : List Ast → ℕ → String
  | [], _ => ""
  | a :: _, 0 => astToLisp a
  | _ :: rest, i + 1 => lispArg rest i

/-- `ast.args.map(astToLisp)`. -/
noncomputable def lispList : List Ast → List String
  | [] => []
  | a :: rest => astToLisp a :: lispList rest

end

/-! ## Evaluator -/

/-- JS `String.prototype.toLowerCase` on the ASCII names the engine uses. -/
def jsToLower (s : String) : String := String.mk (s.data.map Char.toLower)

section
open Classical

mutual

/-- `evalAst(ast, vars)`. The environment is the JS object of textual
bindings (own properties only — the engine never relies on the prototype
chain for the names it uses). A bound variable's text is re-parsed through
`Complex.fromString`; binary operands are read with `evalArg`, which models
`evalAst(ast.args[i], vars)` including the `TypeError` a missing argument
raises. Branch order and operand-evaluation order mirror the source:
`+ - * **` evaluate the left operand first; `/` evaluates the RIGHT operand
first for its zero pre-check, then the left. -/
noncomputable def evalAst : Ast → List (String × String) → Except Err Complex
  | .num v, _ => .ok v
  | .var name, env =>
    match env.lookup name with
    | none => .error (.unboundVar name)
    | some s => Complex.fromString s
  | .call name args, env =>
    let fn := jsToLower name
    match evalList args env with
    | .error e => .error e
    | .ok vs =>
      if fn = "conj" ∨ fn = "conjugate" then
        match vs with
        | [v] => .ok v.conj
        | _ => .error (.arityError "conj")
      else if fn = "sqrt" ∨ fn = "raiz" then
        match vs with
        | [v] => .ok (Complex.sqrt v)
        | _ => .error (.arityError "sqrt")
      else .error (.unknownFunction name)
  | .op o args, env =>
    if o = "neg" then
      match evalArg args 0 env with
      | .error e => .error e
      | .ok v => .ok v.neg
    else if o = "+" then
      match evalArg args 0 env with
      | .error e => .error e
      | .ok a =>
        match evalArg args 1 env with
        | .error e => .error e
        | .ok b => .ok (a.add b)
    else if o = "-" then
      match evalArg args 0 env with
      | .error e => .error e
      | .ok a =>
        match evalArg args 1 env with
        | .error e => .error e
        | .ok b => .ok (a.sub b)
    else if o = "*" then
      match evalArg args 0 env with
      | .error e => .error e
      | .ok a =>
        match evalArg args 1 env with
        | .error e => .error e
        | .ok b => .ok (a.mul b)
    else if o = "/" then
      match evalArg args 1 env with
      | .error e => .error e
      | .ok denom =>
        if denom.re = 0 ∧ denom.im = 0 then .error .divByZeroEval
        else
          match evalArg args 0 env with
          | .error e => .error e
          | .ok a => a.div denom
    else if o = "**" then
      match evalArg args 0 env with
      | .error e => .error e
      | .ok base =>
        match evalArg args 1 env with
        | .error e => .error e
        | .ok ex =>
          if ex.im ≠ 0 then .error .complexExponent
          else .ok (base.pow ex.re)
    else .error .unknownAstEval

/-- `evalAst(ast.args[i], vars)`: an out-of-range `args[i]` is `undefined`,
and `evalAst(undefined, vars)` raises a `TypeError` reading `.type`. -/
noncomputable def evalArg : List Ast → ℕ → List (String × String) → Except Err Complex
  | [], _, _ => .error .jsTypeError
  | a :: _, 0, env => evalAst a env
  | _ :: rest, i + 1, env => evalArg rest i env

/-- `ast.args.map(a => evalAst(a, vars))`: left to right, first thrown
error propagates. -/
noncomputable def evalList : List Ast → List (String × String) → Except Err (List Complex)
  | [], _ => .ok []
  | a :: rest, env =>
    match evalAst a env with
    | .error e => .error e
    | .ok v =>
      match evalList rest env with
      | .error e => .error e
      | .ok vs => .ok (v :: vs)

end

end

/-! ## Free-variable collection -/

/-- `Set.prototype.add`: insertion order, no duplicates. -/
def addVar (s : List String) (n : String) : List String :=
  if n ∈ s then s else s ++ [n]

mutual

/-- `collectVars(ast, set)`: preorder walk; the source traverses a call
node's arguments twice (once in the shared call-or-op branch and once in
the trailing call-only line), which the `call` case mirrors — the second
pass adds nothing to the set but is kept for fidelity. -/
def collectVars : Ast → List String → List String
  | .num _, s => s
  | .var n, s => addVar s n
  | .call _ args, s => collectList args (collectList args s)
  | .op _ args, s => collectList args s

def collectList : List Ast → List String → List String
  | [], s => s
  | a :: rest, s => collectList rest (collectVars a s)

end

/-! ## Equivalence tester -/

inductive EquivResult : Type
  | equal : EquivResult
  | notEqual (counterexample : List (String × String)) (v1 v2 : String) : EquivResult
deriving DecidableEq

open Classical in
/-- One sampled binding text:
```${(r1-0.5)*10}${im>=0?'+':''}${(r2-0.5)*10}i``` . -/
noncomputable def sampleText (r1 r2 : ℝ) : String :=
  let re := (r1 - 0.5) * 10
  let im := (r2 - 0.5) * 10
  jsStringOfReal re ++ (if 0 ≤ im then "+" else "") ++ jsStringOfReal im ++ "i"

/-- One trial's assignment object: one sampled text per collected name, in
set-insertion order, consuming two random draws per name starting at draw
index `k`. -/
noncomputable def mkAssignment (names : List String) (rand : ℕ → ℝ) (k : ℕ) :
    List (String × String) :=
  match names with
  | [] => []
  | n :: rest => (n, sampleText (rand k) (rand (k + 1))) :: mkAssignment rest rand (k + 2)

open Classical in
/-- The trial loop of `expressionsEquivalent`: `t` trials remain and the
next random draw is `rand k`. A trial where either evaluation throws is
discarded (the `catch { continue }`); a trial where both succeed but differ
beyond `1e-6` returns the not-equivalent verdict with the offending
assignment and both rendered values; otherwise the loop continues, and
`equal` is returned when the trials run out. -/
noncomputable def equivLoop (a1 a2 : Ast) (names : List String) (rand : ℕ → ℝ) :
    ℕ → ℕ → EquivResult
  | 0, _ => .equal
  | t + 1, k =>
    let asg := mkAssignment names rand k
    match evalAst a1 asg, evalAst a2 asg with
    | .ok v1, .ok v2 =>
      if ¬ v1.approxEquals v2 1e-6 then .notEqual asg v1.toString v2.toString
      else equivLoop a1 a2 names rand t (k + 2 * names.length)
    | _, _ => equivLoop a1 a2 names rand t (k + 2 * names.length)

/-- `expressionsEquivalent(ast1, ast2, trials)`, with `Math.random` made
explicit as the injected draw sequence `rand` (draw `i` is the `i`-th call
the source makes). -/
noncomputable def expressionsEquivalent (a1 a2 : Ast) (trials : ℕ) (rand : ℕ → ℝ) :
    EquivResult :=
  equivLoop a1 a2 (collectVars a2 (collectVars a1 [])) rand trials 0

/-- The collected free-variable name list (`ast1`'s then `ast2`'s, set
semantics): the `names` array of `expressionsEquivalent`. -/
def eqNames (a1 a2 : Ast) : List String := collectVars a2 (collectVars a1 [])

/-- A non-discarded, beyond-epsilon trial: both evaluations of the round
starting at draw index `k` succeed and the results differ beyond `1e-6`.
This is the (only) situation the source's trial loop treats as a
counterexample. -/
def roundBad (a1 a2 : Ast) (names : List String) (rand : ℕ → ℝ) (k : ℕ) : Prop :=
  ∃ v1 v2, evalAst a1 (mkAssignment names rand k) = .ok v1
    ∧ evalAst a2 (mkAssignment names rand k) = .ok v2
    ∧ ¬ Complex.approxEquals v1 v2 1e-6

/-! ## Pipeline helpers (the core API boundary `tokenize → parse → …`) -/

/-- `evaluate(text, bindings)`: tokenize, parse, then evaluate. -/
noncomputable def runExpr (s : String) (env : List (String × String)) :
    Except Err Complex :=
  match tokenize s with
  | .error e => .error e
  | .ok toks =>
    match parseExpression toks with
    | .error e => .error e
    | .ok ast => evalAst ast env

/-- `render(parse(tokenize(text)))`. -/
noncomputable def renderExpr (s : String) : Except Err String :=
  match tokenize s with
  | .error e => .error e
  | .ok toks =>
    match parseExpression toks with
    | .error e => .error e
    | .ok ast => .ok (astToLisp ast)

/-- `parse(tokenize(text))`. -/
def parseStr (s : String) : Except Err Ast :=
  match tokenize s with
  | .error e => .error e
  | .ok toks => parseExpression toks

/-! ## Shared evaluation lemmas -/

theorem jsStringOfReal_ratCast (q : ℚ) : jsStringOfReal (q : ℝ) = jsStringOfRat q := by
  rw [jsStringOfReal, dif_pos ⟨q, rfl⟩]
  have hs := (⟨q, rfl⟩ : ∃ p : ℚ, (p : ℝ) = (q : ℝ)).choose_spec
  have h2 : (⟨q, rfl⟩ : ∃ p : ℚ, (p : ℝ) = (q : ℝ)).choose = q := by exact_mod_cast hs
  rw [h2]

theorem atan2_zero_nonneg (x : ℝ) (hx : 0 ≤ x) : Complex.atan2 0 x = 0 := by
  rcases lt_or_eq_of_le hx with h | h
  · rw [Complex.atan2, if_pos h]
    simp [Real.arctan_zero]
  · rw [Complex.atan2, if_neg (by rw [← h]; exact lt_irrefl 0),
      if_neg (by rw [← h]; exact lt_irrefl 0)]
    simp

theorem abs_real (a : ℝ) (ha : 0 ≤ a) : Complex.abs ⟨a, 0⟩ = a := by
  rw [Complex.abs]
  simp only [mul_zero, add_zero]
  rw [show a * a = a ^ 2 by ring, Real.sqrt_sq ha]

/-- `pow` on a nonnegative pure-real base stays real: the polar angle is 0. -/
theorem pow_real (a n : ℝ) (ha : 0 ≤ a) : Complex.pow ⟨a, 0⟩ n = ⟨Real.rpow a n, 0⟩ := by
  rw [Complex.pow]
  simp only [abs_real a ha, atan2_zero_nonneg a ha, zero_mul, Real.cos_zero, Real.sin_zero,
    mul_one, mul_zero]

theorem pow_real_nat (a : ℝ) (ha : 0 ≤ a) (n : ℕ) :
    Complex.pow ⟨a, 0⟩ ((n : ℕ) : ℝ) = ⟨a ^ n, 0⟩ := by
  rw [pow_real a _ ha, show Real.rpow a ((n : ℕ) : ℝ) = a ^ ((n : ℕ) : ℝ) from rfl,
    Real.rpow_natCast]

theorem numValue_one : numValue "1" = ⟨1, 0⟩ := by
  simp [numValue, show jsNumber "1" = some (1 * ((1 : ℕ) : ℚ)) from rfl, orZero]

theorem numValue_two : numValue "2" = ⟨2, 0⟩ := by
  simp [numValue, show jsNumber "2" = some (1 * ((2 : ℕ) : ℚ)) from rfl, orZero]

theorem numValue_three : numValue "3" = ⟨3, 0⟩ := by
  simp [numValue, show jsNumber "3" = some (1 * ((3 : ℕ) : ℚ)) from rfl, orZero]

theorem numValue_four : numValue "4" = ⟨4, 0⟩ := by
  simp [numValue, show jsNumber "4" = some (1 * ((4 : ℕ) : ℚ)) from rfl, orZero]

theorem toString_three : Complex.toString ⟨3, 0⟩ = "3" := by
  rw [Complex.toString]
  norm_num
  rw [show (3 : ℝ) = ((3 : ℚ) : ℝ) by norm_num, jsStringOfReal_ratCast]
  decide

theorem toString_four : Complex.toString ⟨4, 0⟩ = "4" := by
  rw [Complex.toString]
  norm_num
  rw [show (4 : ℝ) = ((4 : ℚ) : ℝ) by norm_num, jsStringOfReal_ratCast]
  decide

theorem toString_imag_unit : Complex.toString ⟨0, 1⟩ = "i" := by
  rw [Complex.toString]
  norm_num

/-! ## Claims -/

/-- C1: operator precedence and associativity. `"1+2*3"` evaluates to `7`
(additive below multiplicative), and the power tier is right-associative —
but only through the `^` spelling: `"2^3^2"` evaluates to `2^(3^2) = 512`,
not `64`. The claim's `"2**3**2"` instead FAILS TO PARSE: in the tokenizer's
ordered regex alternation the single-character class `[()+\-*/^,]` precedes
the `(\*\*)` alternative, so `**` is lexed as two `*` tokens (the source's
own comment that the regex handles `**` as one token is wrong, and
`parsePower`'s check for a `'**'` token is unreachable), and the parser then
hits `invalidPrimary "*"`. -/
theorem c1_precedence_and_power_bug :
    runExpr "1+2*3" [] = .ok ⟨7, 0⟩
    ∧ tokenize "2**3**2" = .ok ["2", "*", "*", "3", "*", "*", "2"]
    ∧ parseStr "2**3**2" = .error (.invalidPrimary "*")
    ∧ runExpr "2^3^2" [] = .ok ⟨512, 0⟩ := by
  refine ⟨?_, rfl, rfl, ?_⟩
  · rw [show runExpr "1+2*3" [] =
        evalAst (.op "+" [.num (numValue "1"),
          .op "*" [.num (numValue "2"), .num (numValue "3")]]) [] from rfl]
    simp [evalAst, evalArg, numValue_one, numValue_two, numValue_three,
      Complex.add, Complex.mul]
    norm_num
  · rw [show runExpr "2^3^2" [] =
        evalAst (.op "**" [.num (numValue "2"),
          .op "**" [.num (numValue "3"), .num (numValue "2")]]) [] from rfl]
    have hp32 : Complex.pow ⟨3, 0⟩ (2 : ℝ) = ⟨9, 0⟩ := by
      rw [show (2 : ℝ) = ((2 : ℕ) : ℝ) by norm_num, pow_real_nat 3 (by norm_num) 2]
      simp only [Complex.mk.injEq]
      norm_num
    have hp29 : Complex.pow ⟨2, 0⟩ (9 : ℝ) = ⟨512, 0⟩ := by
      rw [show (9 : ℝ) = ((9 : ℕ) : ℝ) by norm_num, pow_real_nat 2 (by norm_num) 9]
      simp only [Complex.mk.injEq]
      norm_num
    simp [evalAst, evalArg, numValue_two, numValue_three, hp32, hp29]

/-- C2 counterexample: the claim says a Variable bound to text that is not a
valid complex literal (e.g. `"abc"`) fails with a parse error; in fact the
literal grammar never throws on non-empty text — `Number("abc")` is NaN and
the constructor's `|| 0` coerces it, so evaluation RETURNS `(0,0)`. -/
theorem c2_counterexample :
    evalAst (.var "x") [("x", "abc")] = .ok ⟨0, 0⟩ := by
  simp [evalAst, List.lookup]
  rw [show Complex.fromString "abc" = .ok ⟨((0 : ℚ) : ℝ), 0⟩ from rfl]
  norm_num

/-- C2 amended: a bound Variable's text is re-parsed through
`Complex.fromString`, and that grammar's ONLY failure, over every input
string, is the empty/whitespace-only literal (`emptyComplex`): whitespace-only
text fails with `emptyComplex` and every other string — malformed or not —
returns some value, because NaN numeral components are coerced to 0 by the
constructor's `Number(x) || 0`; in particular `"abc"` evaluates to `(0,0)`. -/
theorem c2_amended_bound_text :
    (∀ (name : String) (env : List (String × String)) (s : String),
      env.lookup name = some s → evalAst (.var name) env = Complex.fromString s)
    ∧ (∀ s : String, wsTrim s.data = [] → Complex.fromString s = .error .emptyComplex)
    ∧ (∀ s : String, wsTrim s.data ≠ [] → ∃ c, Complex.fromString s = .ok c)
    ∧ Complex.fromString "abc" = .ok ⟨0, 0⟩
    ∧ evalAst (.var "x") [("x", " ")] = .error .emptyComplex
    ∧ evalAst (.var "x") [("x", "abc")] = .ok ⟨0, 0⟩ := by
  refine ⟨?_, ?_, ?_, ?_, ?_, ?_⟩
  · intro name env s h
    simp [evalAst, h]
  · intro s h
    rw [Complex.fromString, if_pos h]
  · intro s h
    rw [Complex.fromString, if_neg h]
    dsimp only
    split_ifs <;> try exact ⟨_, rfl⟩
    all_goals split <;> exact ⟨_, rfl⟩
  · rw [show Complex.fromString "abc" = .ok ⟨((0 : ℚ) : ℝ), 0⟩ from rfl]
    norm_num
  · simp [evalAst, List.lookup,
      show Complex.fromString " " = .error .emptyComplex from rfl]
  · simp [evalAst, List.lookup]
    rw [show Complex.fromString "abc" = .ok ⟨((0 : ℚ) : ℝ), 0⟩ from rfl]
    norm_num

/-- C2 amended, witness: a concrete binding delegates to the literal
grammar, and a concrete malformed non-empty string yields a value. -/
theorem c2_amended_witness :
    evalAst (.var "x") [("x", "5")] = Complex.fromString "5"
    ∧ ∃ c, Complex.fromString "xyz" = .ok c :=
  ⟨c2_amended_bound_text.1 "x" [("x", "5")] "5" (by simp [List.lookup]),
   c2_amended_bound_text.2.2.1 "xyz" (by decide)⟩

/-- C3 counterexample: the claim says every binary operator evaluates its
left operand first, so with `x/y` and both variables unbound the reported
error would be `unboundVar "x"`; the source evaluates the RIGHT operand of
`/` first (for the zero pre-check) and reports `unboundVar "y"`. -/
theorem c3_counterexample :
    evalAst (.op "/" [.var "x", .var "y"]) [] = .error (.unboundVar "y")
    ∧ Err.unboundVar "y" ≠ Err.unboundVar "x" := by
  constructor
  · simp [evalAst, evalArg, List.lookup]
  · decide

/-- C3 amended: `+ - * **` evaluate the left operand first (a left failure
is reported before the right operand is attempted, and a right failure
surfaces only after the left succeeded); `/` alone evaluates its RIGHT
operand first for the division-by-zero pre-check, and its left operand only
after the right succeeded with a nonzero value. -/
theorem c3_amended_operand_order :
    (∀ (l r : Ast) (env : List (String × String)) (e : Err), evalAst l env = .error e →
      evalAst (.op "+" [l, r]) env = .error e
      ∧ evalAst (.op "-" [l, r]) env = .error e
      ∧ evalAst (.op "*" [l, r]) env = .error e
      ∧ evalAst (.op "**" [l, r]) env = .error e)
    ∧ (∀ (l r : Ast) (env : List (String × String)) (vl : Complex) (e : Err),
        evalAst l env = .ok vl → evalAst r env = .error e →
      evalAst (.op "+" [l, r]) env = .error e
      ∧ evalAst (.op "-" [l, r]) env = .error e
      ∧ evalAst (.op "*" [l, r]) env = .error e
      ∧ evalAst (.op "**" [l, r]) env = .error e)
    ∧ (∀ (l r : Ast) (env : List (String × String)) (e : Err), evalAst r env = .error e →
        evalAst (.op "/" [l, r]) env = .error e)
    ∧ (∀ (l r : Ast) (env : List (String × String)) (vr : Complex) (e : Err),
        evalAst r env = .ok vr → ¬(vr.re = 0 ∧ vr.im = 0) → evalAst l env = .error e →
        evalAst (.op "/" [l, r]) env = .error e) := by
  refine ⟨?_, ?_, ?_, ?_⟩
  · intro l r env e h
    refine ⟨?_, ?_, ?_, ?_⟩ <;> simp [evalAst, evalArg, h]
  · intro l r env vl e hl hr
    refine ⟨?_, ?_, ?_, ?_⟩ <;> simp [evalAst, evalArg, hl, hr]
  · intro l r env e h
    simp [evalAst, evalArg, h]
  · intro l r env vr e hr hnz hl
    simp [evalAst, evalArg, hr, hnz, hl]

/-- C3 amended, witness: the right operand's unbound-variable failure is the
reported error of a division. -/
theorem c3_amended_witness :
    evalAst (.op "/" [.num ⟨1, 0⟩, .var "y"]) [] = .error (.unboundVar "y") :=
  c3_amended_operand_order.2.2.1 (.num ⟨1, 0⟩) (.var "y") [] (.unboundVar "y")
    (by simp [evalAst, List.lookup])

/-- C4: a Div node whose right operand evaluates to exactly `(0,0)` fails
with the evaluator's own division-by-zero pre-check (before the left
operand or the division is attempted); `Complex.div` independently fails
when the divisor's squared modulus is exactly 0; `"1/0"` and `"1/x"` with
`x = "0"` both fail with the pre-check's division-by-zero error. -/
theorem c4_division_by_zero :
    (∀ (l r : Ast) (env : List (String × String)), evalAst r env = .ok ⟨0, 0⟩ →
      evalAst (.op "/" [l, r]) env = .error .divByZeroEval)
    ∧ (∀ a b : Complex, b.re * b.re + b.im * b.im = 0 → a.div b = .error .divByZeroComplex)
    ∧ runExpr "1/0" [] = .error .divByZeroEval
    ∧ runExpr "1/x" [("x", "0")] = .error .divByZeroEval := by
  refine ⟨?_, ?_, ?_, ?_⟩
  · intro l r env h
    simp [evalAst, evalArg, h]
  · intro a b h
    rw [Complex.div, if_pos h]
  · rw [show runExpr "1/0" [] =
      evalAst (.op "/" [.num (numValue "1"), .num (numValue "0")]) [] from rfl]
    have h0 : numValue "0" = ⟨0, 0⟩ := by
      simp [numValue, show jsNumber "0" = some (1 * ((0 : ℕ) : ℚ)) from rfl, orZero]
    simp [evalAst, evalArg, h0]
  · rw [show runExpr "1/x" [("x", "0")] =
      evalAst (.op "/" [.num (numValue "1"), .var "x"]) [("x", "0")] from rfl]
    have hx : Complex.fromString "0" = .ok ⟨0, 0⟩ := by
      rw [show Complex.fromString "0" = .ok ⟨((orZero (jsNumber "0") : ℚ) : ℝ), 0⟩ from rfl,
        show jsNumber "0" = some (1 * ((0 : ℕ) : ℚ)) from rfl]
      norm_num [orZero]
    simp [evalAst, evalArg, List.lookup, hx]

/-- C4 witness: the pre-check fires with an unevaluatable left operand, and
`Complex.div` by `(0,0)` fails on its own. -/
theorem c4_witness :
    evalAst (.op "/" [.var "q", .num ⟨0, 0⟩]) [] = .error .divByZeroEval
    ∧ Complex.div ⟨1, 0⟩ ⟨0, 0⟩ = .error .divByZeroComplex :=
  ⟨c4_division_by_zero.1 (.var "q") (.num ⟨0, 0⟩) [] (by simp [evalAst]),
   c4_division_by_zero.2.1 ⟨1, 0⟩ ⟨0, 0⟩ (by norm_num)⟩

/-- C5: `"3+4*i"` parses as an addition of the literal `3` and a
multiplication of the literal `4` by the literal `i` (the `*` token
separates the numeral from `i`, so no fused `4i` literal), and renders in
prefix form as exactly `"(+ 3 (* 4 i))"`. -/
theorem c5_render_canonical :
    parseStr "3+4*i" =
      .ok (.op "+" [.num ⟨3, 0⟩, .op "*" [.num ⟨4, 0⟩, .num ⟨0, 1⟩]])
    ∧ renderExpr "3+4*i" = .ok "(+ 3 (* 4 i))" := by
  constructor
  · rw [show parseStr "3+4*i" =
        .ok (.op "+" [.num (numValue "3"),
          .op "*" [.num (numValue "4"), .num ⟨0, 1⟩]]) from rfl]
    rw [numValue_three, numValue_four]
  · rw [show renderExpr "3+4*i" =
        .ok (astToLisp (.op "+" [.num (numValue "3"),
          .op "*" [.num (numValue "4"), .num ⟨0, 1⟩]])) from rfl]
    rw [numValue_three, numValue_four]
    simp [astToLisp, lispList, lispArg, toString_three, toString_four, toString_imag_unit]
    rfl

/-- C8: a Pow node whose exponent evaluates with a nonzero imaginary
component fails with the complex-exponent error, and with a real exponent
it calls `Complex.pow` with the exponent's real component. The claim's
`"2**(1+1i)"` instead FAILS TO PARSE (the `**` tokenizer slip of C1); the
intended behavior shows through the `^` spelling: `"2^(1+1i)"` fails with
the complex-exponent error. -/
theorem c8_complex_exponent :
    (∀ (l r : Ast) (env : List (String × String)) (base ex : Complex),
      evalAst l env = .ok base → evalAst r env = .ok ex →
      (ex.im ≠ 0 → evalAst (.op "**" [l, r]) env = .error .complexExponent)
      ∧ (ex.im = 0 → evalAst (.op "**" [l, r]) env = .ok (base.pow ex.re)))
    ∧ parseStr "2**(1+1i)" = .error (.invalidPrimary "*")
    ∧ runExpr "2^(1+1i)" [] = .error .complexExponent := by
  refine ⟨?_, rfl, ?_⟩
  · intro l r env base ex hl hr
    constructor
    · intro hne
      simp [evalAst, evalArg, hl, hr, hne]
    · intro heq
      simp [evalAst, evalArg, hl, hr, heq]
  · rw [show runExpr "2^(1+1i)" [] =
      evalAst (.op "**" [.num (numValue "2"),
        .op "+" [.num (numValue "1"), .num ⟨0, ((orZero (jsNumber "1") : ℚ) : ℝ)⟩]]) []
      from rfl]
    have h1i : ((orZero (jsNumber "1") : ℚ) : ℝ) = 1 := by
      rw [show jsNumber "1" = some (1 * ((1 : ℕ) : ℚ)) from rfl]
      norm_num [orZero]
    rw [h1i, numValue_one, numValue_two]
    simp [evalAst, evalArg, Complex.add]

/-- C8 witness: a concrete Pow node with exponent `i` fails with the
complex-exponent error. -/
theorem c8_witness :
    evalAst (.op "**" [.num ⟨2, 0⟩, .num ⟨0, 1⟩]) [] = .error .complexExponent :=
  ((c8_complex_exponent.1 (.num ⟨2, 0⟩) (.num ⟨0, 1⟩) [] ⟨2, 0⟩ ⟨0, 1⟩
    (by simp [evalAst]) (by simp [evalAst])).1 (by norm_num))

/-- C10 counterexample: the claim says parsing succeeds for EVERY token
sequence exhausted where a primary is expected; it does not — for `"(1+"`
(exhausted at position 3, where a primary is expected) the phantom Variable
is produced but the enclosing parenthesis branch still fails with the
unclosed-parenthesis error, and `"conj(1,"` likewise fails with the
function-call variant. -/
theorem c10_counterexample :
    parseStr "(1+" = .error .unclosedParen
    ∧ parseStr "conj(1," = .error .unclosedParenCall :=
  ⟨rfl, rfl⟩

/-- C10 amended: `parsePrimary` itself never fails at an exhausted position —
the out-of-range read behaves as `"undefined"`, passes the identifier test,
and yields a Variable node. Consequently parsing succeeds when the
exhaustion is at top level (`""` parses to `Variable "undefined"` and
`"1+"` to `1 + Variable "undefined"`), but inside an unclosed parenthesized
group or call argument list the phantom Variable is produced and the
enclosing branch still fails with the unclosed-parenthesis error
(`"(1+"`, `"conj(1,"`). -/
theorem c10_amended_exhausted_tokens :
    (∀ (toks : List String) (fuel pos : ℕ), toks.length ≤ pos →
      parsePrimary toks (fuel + 1) pos = .ok (.var "undefined", pos + 1))
    ∧ parseStr "" = .ok (.var "undefined")
    ∧ parseStr "1+" = .ok (.op "+" [.num ⟨1, 0⟩, .var "undefined"])
    ∧ parseStr "(1+" = .error .unclosedParen
    ∧ parseStr "conj(1," = .error .unclosedParenCall := by
  refine ⟨?_, rfl, ?_, rfl, rfl⟩
  · intro toks fuel pos h
    have hp : peekT toks pos = "undefined" := by
      simp [peekT, List.getElem?_eq_none h]
    have hp1 : peekT toks (pos + 1) = "undefined" := by
      simp [peekT, List.getElem?_eq_none (show toks.length ≤ pos + 1 by omega)]
    rw [parsePrimary]
    simp [hp, hp1, show startsDigit "undefined" = false from rfl,
      show isDecFrac "undefined" = false from rfl,
      show isIdentName "undefined" = true from rfl]
  · rw [show parseStr "1+" = .ok (.op "+" [.num (numValue "1"), .var "undefined"]) from rfl,
      numValue_one]

/-- C10 amended, witness: a concrete exhausted read. -/
theorem c10_witness :
    parsePrimary ["1", "+"] 1 2 = .ok (.var "undefined", 3) :=
  c10_amended_exhausted_tokens.1 ["1", "+"] 0 2 (by norm_num)

theorem approxEquals_refl (z : Complex) (eps : ℝ) (h : 0 < eps) :
    Complex.approxEquals z z eps := by
  constructor <;> simp [h]

/-- C6: the toString/fromString round-trip FAILS for values with nonzero
real part and unit imaginary part: `toString (3,1) = "3+i"`, but
`fromString "3+i"` splits the core `"3+"` at the sign and feeds `"+"` to
`Number`, which is NaN and is coerced to 0 by the constructor, giving
`(3,0)` — not approx-equal to `(3,1)` within `1e-8`. Away from that family
the round-trip holds exactly (hence approx within `1e-8`) on a
representative set covering every branch of the formatting grammar:
mixed-sign complexes, pure imaginaries, pure reals, zero, the imaginary
units, and fractional components. -/
theorem c6_roundtrip_bug :
    Complex.toString ⟨3, 1⟩ = "3+i"
    ∧ Complex.fromString "3+i" = .ok ⟨3, 0⟩
    ∧ ¬ Complex.approxEquals ⟨3, 0⟩ ⟨3, 1⟩ 1e-8
    ∧ (∀ z ∈ ([⟨3, 4⟩, ⟨3, -4⟩, ⟨0, 1⟩, ⟨0, -1⟩, ⟨5, 0⟩, ⟨0, 0⟩, ⟨-2, -5⟩, ⟨0, -4⟩,
          ⟨((Rat.mk' 1 2 : ℚ) : ℝ), ((Rat.mk' (-9) 4 : ℚ) : ℝ)⟩] : List Complex),
        ∃ w, Complex.fromString (Complex.toString z) = .ok w
          ∧ Complex.approxEquals w z 1e-8) := by
  have ts31 : Complex.toString ⟨3, 1⟩ = "3+i" := by
    rw [Complex.toString]
    norm_num
    rw [show (3 : ℝ) = ((3 : ℚ) : ℝ) by norm_num, jsStringOfReal_ratCast]
    decide
  have fs31 : Complex.fromString "3+i" = .ok ⟨3, 0⟩ := by
    rw [show Complex.fromString "3+i" =
      .ok ⟨((orZero (jsNumber "3") : ℚ) : ℝ), ((orZero (jsNumber "+") : ℚ) : ℝ)⟩ from rfl,
      show jsNumber "3" = some (1 * ((3 : ℕ) : ℚ)) from rfl,
      show jsNumber "+" = none from rfl]
    norm_num [orZero]
  refine ⟨ts31, fs31, by norm_num [Complex.approxEquals], ?_⟩
  have ts34 : Complex.toString ⟨3, 4⟩ = "3+4i" := by
    rw [Complex.toString]
    norm_num
    rw [show (3 : ℝ) = ((3 : ℚ) : ℝ) by norm_num, show (4 : ℝ) = ((4 : ℚ) : ℝ) by norm_num,
      jsStringOfReal_ratCast, jsStringOfReal_ratCast]
    decide
  have fs34 : Complex.fromString "3+4i" = .ok ⟨3, 4⟩ := by
    rw [show Complex.fromString "3+4i" =
      .ok ⟨((orZero (jsNumber "3") : ℚ) : ℝ), ((orZero (jsNumber "+4") : ℚ) : ℝ)⟩ from rfl,
      show jsNumber "3" = some (1 * ((3 : ℕ) : ℚ)) from rfl,
      show jsNumber "+4" = some (1 * ((4 : ℕ) : ℚ)) from rfl]
    norm_num [orZero]
  have ts3m4 : Complex.toString ⟨3, -4⟩ = "3-4i" := by
    rw [Complex.toString]
    norm_num
    rw [show (3 : ℝ) = ((3 : ℚ) : ℝ) by norm_num, show (4 : ℝ) = ((4 : ℚ) : ℝ) by norm_num,
      jsStringOfReal_ratCast, jsStringOfReal_ratCast]
    decide
  have fs3m4 : Complex.fromString "3-4i" = .ok ⟨3, -4⟩ := by
    rw [show Complex.fromString "3-4i" =
      .ok ⟨((orZero (jsNumber "3") : ℚ) : ℝ), ((orZero (jsNumber "-4") : ℚ) : ℝ)⟩ from rfl,
      show jsNumber "3" = some (1 * ((3 : ℕ) : ℚ)) from rfl,
      show jsNumber "-4" = some (-1 * ((4 : ℕ) : ℚ)) from rfl]
    norm_num [orZero]
  have ts0m1 : Complex.toString ⟨0, -1⟩ = "-i" := by
    rw [Complex.toString]
    norm_num
  have ts50 : Complex.toString ⟨5, 0⟩ = "5" := by
    rw [Complex.toString]
    norm_num
    rw [show (5 : ℝ) = ((5 : ℚ) : ℝ) by norm_num, jsStringOfReal_ratCast]
    decide
  have fs50 : Complex.fromString "5" = .ok ⟨5, 0⟩ := by
    rw [show Complex.fromString "5" = .ok ⟨((orZero (jsNumber "5") : ℚ) : ℝ), 0⟩ from rfl,
      show jsNumber "5" = some (1 * ((5 : ℕ) : ℚ)) from rfl]
    norm_num [orZero]
  have ts00 : Complex.toString ⟨0, 0⟩ = "0" := by
    rw [Complex.toString]
    norm_num
    rw [show (0 : ℝ) = ((0 : ℚ) : ℝ) by norm_num, jsStringOfReal_ratCast]
    decide
  have fs00 : Complex.fromString "0" = .ok ⟨0, 0⟩ := by
    rw [show Complex.fromString "0" = .ok ⟨((orZero (jsNumber "0") : ℚ) : ℝ), 0⟩ from rfl,
      show jsNumber "0" = some (1 * ((0 : ℕ) : ℚ)) from rfl]
    norm_num [orZero]
  have tsm2m5 : Complex.toString ⟨-2, -5⟩ = "-2-5i" := by
    rw [Complex.toString]
    norm_num
    rw [show (-2 : ℝ) = ((-2 : ℚ) : ℝ) by norm_num, show (5 : ℝ) = ((5 : ℚ) : ℝ) by norm_num,
      jsStringOfReal_ratCast, jsStringOfReal_ratCast]
    decide
  have fsm2m5 : Complex.fromString "-2-5i" = .ok ⟨-2, -5⟩ := by
    rw [show Complex.fromString "-2-5i" =
      .ok ⟨((orZero (jsNumber "-2") : ℚ) : ℝ), ((orZero (jsNumber "-5") : ℚ) : ℝ)⟩ from rfl,
      show jsNumber "-2" = some (-1 * ((2 : ℕ) : ℚ)) from rfl,
      show jsNumber "-5" = some (-1 * ((5 : ℕ) : ℚ)) from rfl]
    norm_num [orZero]
  have ts0m4 : Complex.toString ⟨0, -4⟩ = "-4i" := by
    rw [Complex.toString]
    norm_num
    rw [show (-4 : ℝ) = ((-4 : ℚ) : ℝ) by norm_num, jsStringOfReal_ratCast]
    decide
  have fs0m4 : Complex.fromString "-4i" = .ok ⟨0, -4⟩ := by
    rw [show Complex.fromString "-4i" =
      .ok ⟨0, ((orZero (jsNumber "-4") : ℚ) : ℝ)⟩ from rfl,
      show jsNumber "-4" = some (-1 * ((4 : ℕ) : ℚ)) from rfl]
    norm_num [orZero]
  have tsFrac : Complex.toString ⟨((Rat.mk' 1 2 : ℚ) : ℝ), ((Rat.mk' (-9) 4 : ℚ) : ℝ)⟩ =
      "0.5-2.25i" := by
    rw [Complex.toString]
    have him : ¬ (((Rat.mk' (-9) 4 : ℚ) : ℝ) = 0) := by
      rw [Rat.cast_eq_zero]; decide
    have hre : ¬ (((Rat.mk' 1 2 : ℚ) : ℝ) = 0) := by
      rw [Rat.cast_eq_zero]; decide
    have hsign : ¬ (0 ≤ ((Rat.mk' (-9) 4 : ℚ) : ℝ)) := by
      rw [not_le]
      exact_mod_cast (by decide : (Rat.mk' (-9) 4 : ℚ) < 0)
    have habs : |((Rat.mk' (-9) 4 : ℚ) : ℝ)| = ((Rat.mk' 9 4 : ℚ) : ℝ) := by
      rw [← Rat.cast_abs]
      congr 1
    have habs1 : ¬ (((Rat.mk' 9 4 : ℚ) : ℝ) = 1) := by
      rw [show (1 : ℝ) = ((1 : ℚ) : ℝ) by norm_num, Rat.cast_inj]
      decide
    simp only [him, hre, hsign, habs, habs1, if_neg, if_false, ite_false,
      jsStringOfReal_ratCast]
    decide
  have fsFrac : Complex.fromString "0.5-2.25i" =
      .ok ⟨((Rat.mk' 1 2 : ℚ) : ℝ), ((Rat.mk' (-9) 4 : ℚ) : ℝ)⟩ := by
    rw [show Complex.fromString "0.5-2.25i" =
      .ok ⟨((orZero (jsNumber "0.5") : ℚ) : ℝ), ((orZero (jsNumber "-2.25") : ℚ) : ℝ)⟩ from rfl,
      show jsNumber "0.5" = some (1 * (((0 : ℕ) : ℚ) + ((5 : ℕ) : ℚ) / 10 ^ 1)) from rfl,
      show jsNumber "-2.25" = some (-1 * (((2 : ℕ) : ℚ) + ((25 : ℕ) : ℚ) / 10 ^ 2)) from rfl]
    have h1 : (1 * (((0 : ℕ) : ℚ) + ((5 : ℕ) : ℚ) / 10 ^ 1)) = Rat.mk' 1 2 := by
      norm_num [Rat.mk'_eq_divInt, Rat.divInt_eq_div]
    have h2 : (-1 * (((2 : ℕ) : ℚ) + ((25 : ℕ) : ℚ) / 10 ^ 2)) = Rat.mk' (-9) 4 := by
      norm_num [Rat.mk'_eq_divInt, Rat.divInt_eq_div]
    simp only [orZero, Option.getD_some]
    rw [h1, h2]
  intro z hz
  have heps : (0 : ℝ) < 1e-8 := by norm_num
  simp only [List.mem_cons, List.not_mem_nil, or_false] at hz
  rcases hz with rfl | rfl | rfl | rfl | rfl | rfl | rfl | rfl | rfl
  · exact ⟨⟨3, 4⟩, by rw [ts34]; exact fs34, approxEquals_refl _ _ heps⟩
  · exact ⟨⟨3, -4⟩, by rw [ts3m4]; exact fs3m4, approxEquals_refl _ _ heps⟩
  · exact ⟨⟨0, 1⟩, by rw [toString_imag_unit]; exact rfl, approxEquals_refl _ _ heps⟩
  · exact ⟨⟨0, -1⟩, by rw [ts0m1]; exact rfl, approxEquals_refl _ _ heps⟩
  · exact ⟨⟨5, 0⟩, by rw [ts50]; exact fs50, approxEquals_refl _ _ heps⟩
  · exact ⟨⟨0, 0⟩, by rw [ts00]; exact fs00, approxEquals_refl _ _ heps⟩
  · exact ⟨⟨-2, -5⟩, by rw [tsm2m5]; exact fsm2m5, approxEquals_refl _ _ heps⟩
  · exact ⟨⟨0, -4⟩, by rw [ts0m4]; exact fs0m4, approxEquals_refl _ _ heps⟩
  · exact ⟨_, by rw [tsFrac]; exact fsFrac, approxEquals_refl _ _ heps⟩

/-- C6 witness: the round-trip at the concrete value `(3,4)`. -/
theorem c6_witness :
    ∃ w, Complex.fromString (Complex.toString ⟨3, 4⟩) = .ok w
      ∧ Complex.approxEquals w ⟨3, 4⟩ 1e-8 :=
  c6_roundtrip_bug.2.2.2 ⟨3, 4⟩ (by simp)
theorem forall_lt_succ_shift (P : ℕ → Prop) (t : ℕ) :
    (∀ j < t + 1, P j) ↔ P 0 ∧ ∀ j < t, P (j + 1) := by
  constructor
  · intro h
    exact ⟨h 0 (by omega), fun j hj => h (j + 1) (by omega)⟩
  · rintro ⟨h0, h⟩ j hj
    match j with
    | 0 => exact h0
    | j + 1 => exact h j (by omega)

theorem equivLoop_equal_iff (a1 a2 : Ast) (names : List String) (rand : ℕ → ℝ) :
    ∀ t k, equivLoop a1 a2 names rand t k = .equal ↔
      ∀ j < t, ¬ roundBad a1 a2 names rand (k + j * (2 * names.length)) := by
  intro t
  induction t with
  | zero =>
    intro k
    simp [equivLoop]
  | succ t ih =>
    intro k
    have harith : ∀ j : ℕ,
        k + (j + 1) * (2 * names.length) = (k + 2 * names.length) + j * (2 * names.length) :=
      fun j => by ring
    rw [forall_lt_succ_shift (fun j => ¬ roundBad a1 a2 names rand (k + j * (2 * names.length)))]
    simp only [zero_mul, add_zero, harith]
    rcases h1 : evalAst a1 (mkAssignment names rand k) with f1 | v1
    · have hnb : ¬ roundBad a1 a2 names rand k := by
        rintro ⟨w1, w2, hw1, hw2, hna⟩
        rw [h1] at hw1
        cases hw1
      rw [equivLoop]
      rcases h2 : evalAst a2 (mkAssignment names rand k) with f2 | v2 <;>
        simp only [h1, h2] <;>
        rw [ih (k + 2 * names.length)] <;>
        simp [hnb]
    · rcases h2 : evalAst a2 (mkAssignment names rand k) with f2 | v2
      · have hnb : ¬ roundBad a1 a2 names rand k := by
          rintro ⟨w1, w2, hw1, hw2, hna⟩
          rw [h2] at hw2
          cases hw2
        rw [equivLoop]
        simp only [h1, h2]
        rw [ih (k + 2 * names.length)]
        simp [hnb]
      · by_cases hap : Complex.approxEquals v1 v2 1e-6
        · have hnb : ¬ roundBad a1 a2 names rand k := by
            rintro ⟨w1, w2, hw1, hw2, hna⟩
            rw [h1] at hw1
            rw [h2] at hw2
            cases hw1
            cases hw2
            exact hna hap
          rw [equivLoop]
          simp only [h1, h2, if_neg (not_not_intro hap)]
          rw [ih (k + 2 * names.length)]
          simp [hnb]
        · have hb : roundBad a1 a2 names rand k := ⟨v1, v2, h1, h2, hap⟩
          rw [equivLoop]
          simp only [h1, h2, if_pos hap]
          constructor
          · intro h
            exact absurd h (by simp)
          · rintro ⟨hnb, _⟩
            exact absurd hb hnb

theorem equivLoop_first_bad (a1 a2 : Ast) (names : List String) (rand : ℕ → ℝ) :
    ∀ t k j, j < t →
      (∀ i < j, ¬ roundBad a1 a2 names rand (k + i * (2 * names.length))) →
      ∀ v1 v2,
        evalAst a1 (mkAssignment names rand (k + j * (2 * names.length))) = .ok v1 →
        evalAst a2 (mkAssignment names rand (k + j * (2 * names.length))) = .ok v2 →
        ¬ Complex.approxEquals v1 v2 1e-6 →
        equivLoop a1 a2 names rand t k =
          .notEqual (mkAssignment names rand (k + j * (2 * names.length)))
            v1.toString v2.toString := by
  intro t
  induction t with
  | zero =>
    intro k j hj
    exact absurd hj (by omega)
  | succ t ih =>
    intro k j hj hpre v1 v2 h1 h2 hna
    match j with
    | 0 =>
      simp only [zero_mul, add_zero] at h1 h2 ⊢
      rw [equivLoop]
      simp [h1, h2, hna]
    | j + 1 =>
      have h0 : ¬ roundBad a1 a2 names rand k := by
        have := hpre 0 (by omega)
        simpa using this
      have harith : k + (j + 1) * (2 * names.length) =
          (k + 2 * names.length) + j * (2 * names.length) := by ring
      rw [harith] at h1 h2 ⊢
      have hrec := ih (k + 2 * names.length) j (by omega)
        (fun i hi => by
          have := hpre (i + 1) (by omega)
          rw [show k + (i + 1) * (2 * names.length) =
            (k + 2 * names.length) + i * (2 * names.length) by ring] at this
          exact this)
        v1 v2 h1 h2 hna
      rcases e1 : evalAst a1 (mkAssignment names rand k) with f1 | w1
      · rw [equivLoop]
        rcases e2 : evalAst a2 (mkAssignment names rand k) with f2 | w2 <;>
          simp only [e1, e2] <;> exact hrec
      · rcases e2 : evalAst a2 (mkAssignment names rand k) with f2 | w2
        · rw [equivLoop]
          simp only [e1, e2]
          exact hrec
        · have hap : Complex.approxEquals w1 w2 1e-6 := by
            by_contra hnap
            exact h0 ⟨w1, w2, e1, e2, hnap⟩
          rw [equivLoop]
          simp only [e1, e2, if_neg (not_not_intro hap)]
          exact hrec

/-- C7: for every pair of ASTs, trial count, and random draw sequence, the
equivalence tester returns `equal` exactly when no round within the trial
budget is a non-discarded beyond-epsilon round (`roundBad`): a round in
which either evaluation throws is discarded and contributes to neither
verdict, and when every round is discarded the verdict is `equal`. When
some round is bad, the FIRST such round's assignment and both rendered
values are returned as the `notEqual` counterexample (the loop stops
there). -/
theorem c7_equivalence_discard_and_verdict (a1 a2 : Ast) (trials : ℕ) (rand : ℕ → ℝ) :
    (expressionsEquivalent a1 a2 trials rand = .equal ↔
      ∀ r < trials, ¬ roundBad a1 a2 (eqNames a1 a2) rand (r * (2 * (eqNames a1 a2).length)))
    ∧ (∀ r < trials,
        (∀ i < r, ¬ roundBad a1 a2 (eqNames a1 a2) rand (i * (2 * (eqNames a1 a2).length))) →
        ∀ v1 v2,
          evalAst a1 (mkAssignment (eqNames a1 a2) rand (r * (2 * (eqNames a1 a2).length)))
            = .ok v1 →
          evalAst a2 (mkAssignment (eqNames a1 a2) rand (r * (2 * (eqNames a1 a2).length)))
            = .ok v2 →
          ¬ Complex.approxEquals v1 v2 1e-6 →
          expressionsEquivalent a1 a2 trials rand =
            .notEqual (mkAssignment (eqNames a1 a2) rand (r * (2 * (eqNames a1 a2).length)))
              v1.toString v2.toString) := by
  have hdef : expressionsEquivalent a1 a2 trials rand =
      equivLoop a1 a2 (eqNames a1 a2) rand trials 0 := rfl
  constructor
  · rw [hdef, equivLoop_equal_iff]
    simp only [zero_add]
  · intro r hr hpre v1 v2 h1 h2 hna
    rw [hdef]
    have := equivLoop_first_bad a1 a2 (eqNames a1 a2) rand trials 0 r hr
      (by simpa using hpre) v1 v2 (by simpa using h1) (by simpa using h2) hna
    simpa using this

/-- C7 witness: two identical literal trees over one trial with a constant
draw sequence come out `equal`. -/
theorem c7_witness :
    expressionsEquivalent (.num ⟨1, 0⟩) (.num ⟨1, 0⟩) 1 (fun _ => 0) = .equal := by
  refine (c7_equivalence_discard_and_verdict (.num ⟨1, 0⟩) (.num ⟨1, 0⟩) 1 (fun _ => 0)).1.mpr ?_
  rintro r _ ⟨v1, v2, hv1, hv2, hna⟩
  simp only [evalAst] at hv1 hv2
  cases hv1
  cases hv2
  exact hna (approxEquals_refl _ _ (by norm_num))

end App
